import Mathlib

/-!
Verification development for the CodeScope repository.

Shallow embedding of the core pipeline of the repository:
  * `src/js_parser.py`   — the line-oriented structural parser for JS/TS files;
  * `src/file_scanner.py` — directory walking, pruning, and per-file exclusion rules;
  * `src/aggregator.py`  — filtering loop, concurrent read phase, output writing.

Python regular expressions are embedded via a small backtracking matcher
(`Rgx`, `reMatch`, `reSearch`) that reproduces `re.search` semantics
(leftmost start position, greedy quantifiers with backtracking, MULTILINE
anchors, word boundaries) for the constructs the five source patterns use.
Repetition only ever occurs over single-character classes in those patterns,
so the matcher provides repetition over character classes only; this makes
every match attempt consume at least one character per iteration and keeps
all definitions total and executable.
-/

set_option maxHeartbeats 1600000

/-- Python `\s` on ASCII text: space, tab, newline, carriage return,
form feed, vertical tab. -/
def isSpaceChar (c : Char) : Bool :=
  c = ' ' || c = '\t' || c = '\n' || c = '\r' || c = '\x0b' || c = '\x0c'

/-- Python `\w` on ASCII text: letters, digits, underscore. -/
def isWordChar (c : Char) : Bool :=
  c.isAlphanum || c = '_'

/-- The character class `[\w$]` used for JS identifiers in the source patterns. -/
def isIdentChar (c : Char) : Bool :=
  isWordChar c || c = '$'

/-- The character class `["\']` (either kind of quote). -/
def isQuoteChar (c : Char) : Bool :=
  c = '"' || c = '\''

/-- Regular-expression abstract syntax, covering exactly the constructs used by
the five patterns in `src/js_parser.py`.  Repetition (`starCls`, `plusCls`)
is restricted to single-character classes, which is all those patterns use. -/
inductive Rgx where
  | eps : Rgx
  | cls : (Char → Bool) → Rgx
  | lit : List Char → Rgx
  | seq : Rgx → Rgx → Rgx
  | opt : Rgx → Rgx
  | starCls : (Char → Bool) → Rgx
  | plusCls : (Char → Bool) → Rgx
  | grp : Nat → Rgx → Rgx
  | bol : Rgx
  | wb : Rgx

/-- Capture list: pairs of group index and captured text. -/
abbrev Caps := List (Nat × String)

/-- Literal matching: consume the literal characters one by one.
The continuation receives the character preceding the remaining input
(needed for `\b` and MULTILINE `^`), the remaining input, and the captures. -/
def matchLit (s : List Char) (prev : Option Char) (cs : List Char) (caps : Caps)
    (k : Option Char → List Char → Caps → Option Caps) : Option Caps :=
  match s, cs with
  | [], _ => k prev cs caps
  | _ :: _, [] => none
  | a :: s2, c :: cs2 => if a = c then matchLit s2 (some c) cs2 caps k else none

/-- Last character of a consumed run, falling back to the previous character
when nothing was consumed. -/
def lastChar (prev : Option Char) (taken : List Char) : Option Char :=
  match taken.getLast? with
  | some c => some c
  | none => prev

/-- Greedy repetition over a character class: try consuming `n` characters
first, then backtrack one character at a time down to zero. -/
def tryLens (prev : Option Char) (cs : List Char)
    (k : Option Char → List Char → Option Caps) : Nat → Option Caps
  | 0 => k prev cs
  | n + 1 =>
      match k (lastChar prev (cs.take (n + 1))) (cs.drop (n + 1)) with
      | some r => some r
      | none => tryLens prev cs k n

/-- Backtracking matcher in continuation style, reproducing Python `re`
semantics for the embedded constructs.  `prev` is the character immediately
before the current position (`none` at the start of the searched string). -/
def reMatch : Rgx → Option Char → List Char → Caps →
    (Option Char → List Char → Caps → Option Caps) → Option Caps
  | .eps, prev, cs, caps, k => k prev cs caps
  | .cls p, _, cs, caps, k =>
      match cs with
      | [] => none
      | c :: rest => if p c then k (some c) rest caps else none
  | .lit s, prev, cs, caps, k => matchLit s prev cs caps k
  | .seq a b, prev, cs, caps, k =>
      reMatch a prev cs caps (fun prev2 cs2 caps2 => reMatch b prev2 cs2 caps2 k)
  | .opt a, prev, cs, caps, k =>
      match reMatch a prev cs caps k with
      | some r => some r
      | none => k prev cs caps
  | .starCls p, prev, cs, caps, k =>
      tryLens prev cs (fun prev2 cs2 => k prev2 cs2 caps) ((cs.takeWhile p).length)
  | .plusCls p, prev, cs, caps, k =>
      match cs with
      | [] => none
      | c :: rest =>
          if p c then
            tryLens (some c) rest (fun prev2 cs2 => k prev2 cs2 caps)
              ((rest.takeWhile p).length)
          else none
  | .grp i a, prev, cs, caps, k =>
      reMatch a prev cs caps (fun prev2 cs2 caps2 =>
        k prev2 cs2 (caps2 ++ [(i, String.mk (cs.take (cs.length - cs2.length)))]))
  | .bol, prev, cs, caps, k =>
      match prev with
      | none => k prev cs caps
      | some c => if c = '\n' then k prev cs caps else none
  | .wb, prev, cs, caps, k =>
      let before := match prev with | none => false | some c => isWordChar c
      let after := match cs with | [] => false | c :: _ => isWordChar c
      if before ≠ after then k prev cs caps else none

/-- Search: try a match at every start position, leftmost first
(the semantics of Python `re.search`). -/
def reSearchAux (r : Rgx) (prev : Option Char) (cs : List Char) : Option Caps :=
  match reMatch r prev cs [] (fun _ _ caps => some caps) with
  | some caps => some caps
  | none =>
      match cs with
      | [] => none
      | c :: rest => reSearchAux r (some c) rest

/-- Python `PATTERN.search(line)`: `some caps` on a match, `none` otherwise. -/
def reSearch (r : Rgx) (s : String) : Option Caps :=
  reSearchAux r none s.data

/-- Python `match.group(i)`. -/
def capGroup (caps : Caps) (i : Nat) : Option String :=
  (caps.find? (fun x => x.1 == i)).map (fun x => x.2)

/-- The character class `[\w*\s\x7b,\x7d]` inside the import pattern. -/
def isImportClauseChar (c : Char) : Bool :=
  isWordChar c || c = '*' || isSpaceChar c || c = '\x7b' || c = ',' || c = '\x7d'

/-- `IMPORT_PATTERN` from `src/js_parser.py`:
`^\s*import\s+(?:[\w*\s\x7b,\x7d]+from\s+)?["\']([^"\']+)["\']` (MULTILINE). -/
def IMPORT_PATTERN : Rgx :=
  .seq .bol (.seq (.starCls isSpaceChar) (.seq (.lit "import".data)
    (.seq (.plusCls isSpaceChar)
      (.seq (.opt (.seq (.plusCls isImportClauseChar)
                    (.seq (.lit "from".data) (.plusCls isSpaceChar))))
        (.seq (.cls isQuoteChar)
          (.seq (.grp 1 (.plusCls (fun c => !isQuoteChar c)))
            (.cls isQuoteChar)))))))

/-- `REQUIRE_PATTERN` from `src/js_parser.py`:
`\brequire\s*\(\s*["\']([^"\']+)["\']\s*\)` (MULTILINE). -/
def REQUIRE_PATTERN : Rgx :=
  .seq .wb (.seq (.lit "require".data)
    (.seq (.starCls isSpaceChar) (.seq (.lit "(".data)
      (.seq (.starCls isSpaceChar)
        (.seq (.cls isQuoteChar)
          (.seq (.grp 1 (.plusCls (fun c => !isQuoteChar c)))
            (.seq (.cls isQuoteChar)
              (.seq (.starCls isSpaceChar) (.lit ")".data)))))))))

/-- `FUNCTION_PATTERN` from `src/js_parser.py`:
`(?:export\s+)?function\s+([\w$]+)\s*\(` (MULTILINE). -/
def FUNCTION_PATTERN : Rgx :=
  .seq (.opt (.seq (.lit "export".data) (.plusCls isSpaceChar)))
    (.seq (.lit "function".data)
      (.seq (.plusCls isSpaceChar)
        (.seq (.grp 1 (.plusCls isIdentChar))
          (.seq (.starCls isSpaceChar) (.lit "(".data)))))

/-- `CLASS_PATTERN` from `src/js_parser.py`:
`(?:export\s+)?class\s+([\w$]+)\s*\x7b` (MULTILINE). -/
def CLASS_PATTERN : Rgx :=
  .seq (.opt (.seq (.lit "export".data) (.plusCls isSpaceChar)))
    (.seq (.lit "class".data)
      (.seq (.plusCls isSpaceChar)
        (.seq (.grp 1 (.plusCls isIdentChar))
          (.seq (.starCls isSpaceChar) (.lit "\x7b".data)))))

/-- `PROTOTYPE_METHOD_PATTERN` from `src/js_parser.py`:
`([\w$]+)\.prototype\.([\w$]+)\s*=\s*function\s*\([^)]*\)` (MULTILINE). -/
def PROTOTYPE_METHOD_PATTERN : Rgx :=
  .seq (.grp 1 (.plusCls isIdentChar))
    (.seq (.lit ".prototype.".data)
      (.seq (.grp 2 (.plusCls isIdentChar))
        (.seq (.starCls isSpaceChar)
          (.seq (.lit "=".data)
            (.seq (.starCls isSpaceChar)
              (.seq (.lit "function".data)
                (.seq (.starCls isSpaceChar)
                  (.seq (.lit "(".data)
                    (.seq (.starCls (fun c => c ≠ ')')) (.lit ")".data))))))))))

/-! ## Structural parser (`src/js_parser.py`, `parse_js_ts_file`) -/

/-- Python `f.readlines()`: split after every newline, keeping the newline
on each line; a final chunk without a newline is kept as-is. -/
def readlinesAux : List Char → List Char → List String
  | acc, [] => if acc.isEmpty then [] else [String.mk acc.reverse]
  | acc, c :: rest =>
      if c = '\n' then String.mk (acc.reverse ++ ['\n']) :: readlinesAux [] rest
      else readlinesAux (c :: acc) rest

/-- Split a file's text into lines the way Python `readlines` does. -/
def readlines (s : String) : List String :=
  readlinesAux [] s.data

/-- Python `line.count(c)`. -/
def countChar (line : String) (c : Char) : Nat :=
  line.data.count c

/-- Python `c in line`. -/
def containsChar (line : String) (c : Char) : Bool :=
  line.data.contains c

/-- The mutable loop state of `parse_js_ts_file`:
the five accumulator lists, the two line counters, and the block-tracking
flags (`inside_block`, `brace_count`).  `brace_count` is a Python int and may
transiently hold any integer, so it is modelled as `Int`. -/
structure PState where
  imports : List String
  requires : List String
  functions : List String
  classes : List String
  protos : List String
  context : Nat
  skipped : Nat
  insideBlock : Bool
  braceCount : Int
deriving Repr, DecidableEq

/-- Initial loop state of `parse_js_ts_file`. -/
def initPState : PState :=
  ⟨[], [], [], [], [], 0, 0, false, 0⟩

/-- The `found_open` inner while-loop shared by the function/class/prototype
branches of `parse_js_ts_file`: advance `i` line by line, counting every
advanced line as skipped, until a line containing a brace is found (then
enter the block with depth 1) or the file ends.  Returns the index at loop
exit (before the `i += 1` that follows the loop in the source) and the
updated state.  `fuel` bounds the recursion; callers pass at least
`total - i + 1`, which the loop never exhausts since `i` grows each round. -/
def scanOpenAux (lines : List String) (total : Nat) :
    Nat → Nat → PState → Nat × PState
  | 0, i, st => (i, st)
  | fuel + 1, i, st =>
      if i < total then
        let i2 := i + 1
        if i2 ≥ total then (i2, st)
        else
          let nextLine := lines.getD i2 ""
          let st2 := { st with skipped := st.skipped + 1 }
          if containsChar nextLine '\x7b' then
            (i2, { st2 with braceCount := 1, insideBlock := true })
          else
            scanOpenAux lines total fuel i2 st2
      else (i, st)

/-- The main while-loop of `parse_js_ts_file`, translated clause by clause:
in block mode count the line as skipped and track brace depth; in scanning
mode test the import pattern, then the require pattern (each without
short-circuiting the rest), then function, class and prototype patterns
(each of which, on a match, ends the line's processing and starts
block-skipping).  `fuel` bounds the recursion; the top-level entry passes
`total + 1`, which is never exhausted since `i` grows every iteration. -/
def mainLoopAux (lines : List String) (total : Nat) :
    Nat → Nat → PState → PState
  | 0, _, st => st
  | fuel + 1, i, st =>
      if i < total then
        let line := lines.getD i ""
        if st.insideBlock then
          let bc := st.braceCount + (countChar line '\x7b' : Int)
                      - (countChar line '\x7d' : Int)
          let st2 := { st with skipped := st.skipped + 1 }
          if bc ≤ 0 then
            mainLoopAux lines total fuel (i + 1)
              { st2 with insideBlock := false, braceCount := 0 }
          else
            mainLoopAux lines total fuel (i + 1) { st2 with braceCount := bc }
        else
          let st1 :=
            match reSearch IMPORT_PATTERN line with
            | some caps =>
                { st with imports := st.imports ++ [(capGroup caps 1).getD ""],
                          context := st.context + 1 }
            | none => st
          let st2 :=
            match reSearch REQUIRE_PATTERN line with
            | some caps =>
                { st1 with requires := st1.requires ++ [(capGroup caps 1).getD ""],
                           context := st1.context + 1 }
            | none => st1
          match reSearch FUNCTION_PATTERN line with
          | some caps =>
              let st3 := { st2 with
                functions := st2.functions ++ [(capGroup caps 1).getD ""],
                context := st2.context + 1 }
              if !containsChar line '\x7b' then
                let r := scanOpenAux lines total (total + 1) i st3
                mainLoopAux lines total fuel (r.1 + 1) r.2
              else
                mainLoopAux lines total fuel (i + 1)
                  { st3 with insideBlock := true, braceCount := 1 }
          | none =>
            match reSearch CLASS_PATTERN line with
            | some caps =>
                let st3 := { st2 with
                  classes := st2.classes ++ [(capGroup caps 1).getD ""],
                  context := st2.context + 1 }
                if !containsChar line '\x7b' then
                  let r := scanOpenAux lines total (total + 1) i st3
                  mainLoopAux lines total fuel (r.1 + 1) r.2
                else
                  mainLoopAux lines total fuel (i + 1)
                    { st3 with insideBlock := true, braceCount := 1 }
            | none =>
              match reSearch PROTOTYPE_METHOD_PATTERN line with
              | some caps =>
                  let st3 := { st2 with
                    protos := st2.protos ++
                      [(capGroup caps 1).getD "" ++ "." ++ (capGroup caps 2).getD ""],
                    context := st2.context + 1 }
                  if !containsChar line '\x7b' then
                    let r := scanOpenAux lines total (total + 1) i st3
                    mainLoopAux lines total fuel (r.1 + 1) r.2
                  else
                    mainLoopAux lines total fuel (i + 1)
                      { st3 with insideBlock := true, braceCount := 1 }
              | none => mainLoopAux lines total fuel (i + 1) st2
      else st

/-- The per-file record returned by `parse_js_ts_file` (field `file` omitted:
it is just the path argument echoed back). -/
structure FileSummary where
  imports : List String
  requires : List String
  functions : List String
  classes : List String
  prototype_methods : List String
  total_lines : Nat
  context_lines : Nat
  skipped_lines : Nat
  non_context_lines : Int
deriving Repr, DecidableEq

/-- Run the scanning loop of `parse_js_ts_file` over a list of lines and
assemble the result record, including the derived
`non_context_lines = total_lines - context_lines - skipped_lines`
(Python int arithmetic, hence `Int`). -/
def parseLines (lines : List String) : FileSummary :=
  let total := lines.length
  let st := mainLoopAux lines total (total + 1) 0 initPState
  { imports := st.imports
    requires := st.requires
    functions := st.functions
    classes := st.classes
    prototype_methods := st.protos
    total_lines := total
    context_lines := st.context
    skipped_lines := st.skipped
    non_context_lines := (total : Int) - (st.context : Int) - (st.skipped : Int) }

/-- `parse_js_ts_file` from `src/js_parser.py`, on the file's decoded text. -/
def parse_js_ts_file (content : String) : FileSummary :=
  parseLines (readlines content)

/-! ## File filtering (`src/file_scanner.py`) -/

/-- A compiled ignore pattern.  `re.search(pat, s)` is embedded as the
pattern's match predicate applied to `s`. -/
abbrev IgnorePattern := String → Bool

/-- The configuration fields consumed by `src/file_scanner.py`.
`modified_after` is the cutoff produced by `datetime.strptime`; modification
times are compared through `<` only, so timestamps are modelled as `Int`. -/
structure ScanConfig where
  file_extensions : List String
  ignore_directories : List String
  ignore_extensions : List String
  ignore_patterns : List IgnorePattern
  modified_after : Int
  max_file_size : Nat
  use_checksum_cache : Bool

/-- A candidate file as the filter sees it.  `size` and `mtime` are the
results of `os.path.getsize` / `os.path.getmtime`, each of which can raise
an `OSError`, modelled as `Except` with the error message.  `md5` is the
result of `compute_md5` on the file's current content. -/
structure FileMeta where
  path : String
  size : Except String Nat
  mtime : Except String Int
  md5 : String

/-- The checksum cache: a path-to-hash mapping (Python dict),
modelled as an association list. -/
abbrev ChecksumCache := List (String × String)

/-- Python `checksum_cache.get(file_path)`. -/
def lookupCache (cache : ChecksumCache) (path : String) : Option String :=
  (cache.find? (fun x => x.1 == path)).map (fun x => x.2)

/-- Python `s.endswith(suffix)`, computed on the character lists.  (The
core `String.endsWith` is byte-position based and does not reduce in the
kernel, so the executable list form is used throughout.) -/
def strEndsWith (s suffix : String) : Bool :=
  suffix.data.isSuffixOf s.data

/-- `should_ignore_file` from `src/file_scanner.py`, rule by rule in source
order: ignored extension, size over maximum, modification time before the
cutoff, ignore-pattern match on the path, and (when caching is enabled)
unchanged checksum.  An `OSError` from the metadata calls surfaces as
`Except.error`; the extension rule precedes both metadata calls, so a file
matched by it never touches the metadata. -/
def should_ignore_file (f : FileMeta) (cfg : ScanConfig) (cache : ChecksumCache) :
    Except String Bool :=
  if cfg.ignore_extensions.any (fun ext => strEndsWith f.path ext) then
    Except.ok true
  else
    match f.size with
    | Except.error e => Except.error e
    | Except.ok sz =>
      if sz > cfg.max_file_size then Except.ok true
      else
        match f.mtime with
        | Except.error e => Except.error e
        | Except.ok mt =>
          if mt < cfg.modified_after then Except.ok true
          else if cfg.ignore_patterns.any (fun pat => pat f.path) then Except.ok true
          else if cfg.use_checksum_cache then
            match lookupCache cache f.path with
            | some old => Except.ok (old == f.md5)
            | none => Except.ok false
          else Except.ok false

/-- Short-circuiting evaluation of an ordered rule list: the first rule that
yields `true` decides; a rule that errors before any rule returned `true`
propagates its error; if every rule yields `false` the result is `false`. -/
def firstTrue : List (Except String Bool) → Except String Bool
  | [] => Except.ok false
  | r :: rs =>
      match r with
      | Except.error e => Except.error e
      | Except.ok true => Except.ok true
      | Except.ok false => firstTrue rs

/-- Modelled from the spec (section 4.2): `is_excluded` as the fixed ordered
rule list — (1) ignored extension, (2) size over maximum, (3) modification
time before cutoff, (4) ignore-regex match, (5) unchanged checksum when
caching is enabled — evaluated with short-circuit on the first true. -/
def is_excluded_spec (f : FileMeta) (cfg : ScanConfig) (cache : ChecksumCache) :
    Except String Bool :=
  firstTrue
    [ Except.ok (cfg.ignore_extensions.any (fun ext => strEndsWith f.path ext)),
      f.size.map (fun sz => sz > cfg.max_file_size),
      f.mtime.map (fun mt => mt < cfg.modified_after),
      Except.ok (cfg.ignore_patterns.any (fun pat => pat f.path)),
      Except.ok (cfg.use_checksum_cache &&
        lookupCache cache f.path == some f.md5) ]

/-- `should_skip_directory` from `src/file_scanner.py`: exact match against
the ignored-directory names, then the ignore patterns — both applied to the
directory's name (the `d` entries of `os.walk` are bare names). -/
def should_skip_directory (dirname : String) (cfg : ScanConfig) : Bool :=
  if cfg.ignore_directories.contains dirname then true
  else cfg.ignore_patterns.any (fun pat => pat dirname)

/-- A directory tree as `os.walk` traverses it: name, plain files, subdirectories. -/
inductive FsTree where
  | node (name : String) (files : List String) (subdirs : List FsTree)

/-- Name of the directory at the root of a tree. -/
def FsTree.name : FsTree → String
  | .node n _ _ => n

/-- Subdirectories of the directory at the root of a tree. -/
def FsTree.subdirs : FsTree → List FsTree
  | .node _ _ ds => ds

/-- Plain files of the directory at the root of a tree. -/
def FsTree.files : FsTree → List String
  | .node _ fs _ => fs

mutual

/-- `collect_file_candidates` from `src/file_scanner.py`, on the walk rooted
at `root` (the absolute base path): a top-down `os.walk` in which, at every
directory, subdirectories failing `should_skip_directory` are pruned from
the traversal, and each file whose name ends with an allowed extension is
yielded as `root/…/name` (`os.path.join`). -/
def collectTree (cfg : ScanConfig) (root : String) : FsTree → List String
  | FsTree.node _ files subdirs =>
      (files.filter (fun fn =>
          cfg.file_extensions.any (fun ext => strEndsWith fn ext))).map
        (fun fn => root ++ "/" ++ fn)
      ++ collectSubdirs cfg root subdirs

/-- Traversal of the (already order-preserving) subdirectory list with
pruning: a subdirectory whose name is to be skipped is not descended into. -/
def collectSubdirs (cfg : ScanConfig) (root : String) : List FsTree → List String
  | [] => []
  | d :: ds =>
      (if should_skip_directory d.name cfg then []
       else collectTree cfg (root ++ "/" ++ d.name) d)
      ++ collectSubdirs cfg root ds

end

/-! ## Aggregation (`src/aggregator.py`) -/

/-- Step 5 of `collect_and_write_context`: the sequential filtering loop.
The loop body has no exception handling, so an `OSError` raised inside
`should_ignore_file` propagates and aborts the loop (and with it the
whole run); files for which the filter returns `false` are kept in order. -/
def filterFiles (cands : List FileMeta) (cfg : ScanConfig) (cache : ChecksumCache) :
    Except String (List String) :=
  match cands with
  | [] => Except.ok []
  | f :: rest =>
      match should_ignore_file f cfg cache with
      | Except.error e => Except.error e
      | Except.ok true => filterFiles rest cfg cache
      | Except.ok false =>
          (filterFiles rest cfg cache).map (fun l => f.path :: l)

/-- Step 6 of `collect_and_write_context`: collecting the worker-pool
results in completion order.  Each element pairs a path with the outcome of
`read_file_content` for it; `fut.result()` re-raises a read error, which the
`try/except` confines to that file — the file is dropped (with a logged
warning) and the loop over the remaining futures continues. -/
def readPhase : List (String × Except String String) → List (String × String)
  | [] => []
  | (fp, Except.ok content) :: rest => (fp, content) :: readPhase rest
  | (_, Except.error _) :: rest => readPhase rest

/-- Step 8 of `collect_and_write_context`: for every collected record, write
the path, a newline, the content, and a newline, in the order the records
were collected. -/
def writeOutput (results : List (String × String)) : String :=
  results.foldl (fun acc r => acc ++ r.1 ++ "\n" ++ r.2 ++ "\n") ""

/-! ### UTF-8 decoding for `read_file_content`

`read_file_content` opens the file with `encoding='utf-8', errors='ignore'`:
the on-disk bytes are decoded as UTF-8 and undecodable bytes are dropped.
The byte level is modelled with `List Nat` (byte values), a standard UTF-8
encoder, and a decoder that skips over invalid bytes. -/

/-- UTF-8 encoding of one Unicode scalar value. -/
def utf8EncodeChar (n : Nat) : List Nat :=
  if n < 0x80 then [n]
  else if n < 0x800 then [0xC0 + n / 64, 0x80 + n % 64]
  else if n < 0x10000 then
    [0xE0 + n / 4096, 0x80 + (n / 64) % 64, 0x80 + n % 64]
  else
    [0xF0 + n / 262144, 0x80 + (n / 4096) % 64, 0x80 + (n / 64) % 64, 0x80 + n % 64]

/-- UTF-8 encoding of a string's characters. -/
def utf8EncodeString (s : String) : List Nat :=
  (s.data.map (fun c => utf8EncodeChar c.toNat)).join

/-- A UTF-8 continuation byte. -/
def isContByte (b : Nat) : Bool :=
  0x80 ≤ b && b < 0xC0

/-- Decode one UTF-8 sequence starting with byte `b0`, the following bytes
being `rest`.  On a well-formed sequence (including the overlong, surrogate
and range restrictions) returns the scalar value and how many continuation
bytes were consumed; otherwise `none`. -/
def decodeOne (b0 : Nat) (rest : List Nat) : Option (Nat × Nat) :=
  if b0 < 0x80 then some (b0, 0)
  else if 0xC2 ≤ b0 && b0 ≤ 0xDF then
    match rest with
    | b1 :: _ =>
        if isContByte b1 then some ((b0 - 0xC0) * 64 + (b1 - 0x80), 1) else none
    | [] => none
  else if 0xE0 ≤ b0 && b0 ≤ 0xEF then
    match rest with
    | b1 :: b2 :: _ =>
        if (if b0 = 0xE0 then 0xA0 ≤ b1 && b1 < 0xC0
            else if b0 = 0xED then 0x80 ≤ b1 && b1 < 0xA0
            else isContByte b1) && isContByte b2 then
          some ((b0 - 0xE0) * 4096 + (b1 - 0x80) * 64 + (b2 - 0x80), 2)
        else none
    | _ => none
  else if 0xF0 ≤ b0 && b0 ≤ 0xF4 then
    match rest with
    | b1 :: b2 :: b3 :: _ =>
        if (if b0 = 0xF0 then 0x90 ≤ b1 && b1 < 0xC0
            else if b0 = 0xF4 then 0x80 ≤ b1 && b1 < 0x90
            else isContByte b1) && isContByte b2 && isContByte b3 then
          some ((b0 - 0xF0) * 262144 + (b1 - 0x80) * 4096 + (b2 - 0x80) * 64
            + (b3 - 0x80), 3)
        else none
    | _ => none
  else none

/-- UTF-8 decoding with `errors='ignore'`: well-formed sequences decode to
their scalar value; a byte that does not begin a well-formed sequence is
skipped. -/
def utf8DecodeIgnore : List Nat → List Nat
  | [] => []
  | b0 :: rest =>
      match decodeOne b0 rest with
      | some (v, k) => v :: utf8DecodeIgnore (rest.drop k)
      | none => utf8DecodeIgnore rest
termination_by l => l.length
decreasing_by all_goals (simp [List.length_drop]; try omega)

/-- Decode a byte list to text, dropping what is not valid UTF-8. -/
def utf8DecodeIgnoreString (bytes : List Nat) : String :=
  String.mk ((utf8DecodeIgnore bytes).map Char.ofNat)

/-- Python text-mode universal-newline translation (the `newline=None`
default of `open(..., 'r')`): a `\r\n` pair and a lone `\r` both read back
as `\n`. -/
def universalNewlinesAux : List Char → List Char
  | [] => []
  | '\r' :: '\n' :: rest => '\n' :: universalNewlinesAux rest
  | '\r' :: rest => '\n' :: universalNewlinesAux rest
  | c :: rest => c :: universalNewlinesAux rest

/-- Universal-newline translation on a string. -/
def universalNewlines (s : String) : String :=
  String.mk (universalNewlinesAux s.data)

/-- A file on disk as the read phase sees it: a path and raw bytes. -/
structure DiskFile where
  path : String
  bytes : List Nat

/-- `read_file_content` from `src/aggregator.py` (checksum bookkeeping
aside): read the file's bytes through Python text mode — decode them as
UTF-8 with `errors='ignore'`, then apply universal-newline translation —
and return the `(path, content)` pair. -/
def read_file_content (f : DiskFile) : String × String :=
  (f.path, universalNewlines (utf8DecodeIgnoreString f.bytes))

/-! ## Theorems -/

/-- C1: for every file processed by the structural parser, the produced
summary satisfies
`total_lines = context_lines + skipped_lines + non_context_lines`. -/
theorem C1_stats_invariant (content : String) :
    ((parse_js_ts_file content).total_lines : Int) =
      (parse_js_ts_file content).context_lines
        + (parse_js_ts_file content).skipped_lines
        + (parse_js_ts_file content).non_context_lines := by
  simp only [parse_js_ts_file, parseLines]
  omega

/-- C9: on the three-line input `function foo() {\n  return 1;\n}\n` the
parser extracts the function name `foo` and reports stats
total 3, context 1, skipped 2, non-context 0. -/
theorem C9_scenario_function_foo :
    (parse_js_ts_file "function foo() \x7b\n  return 1;\n\x7d\n").functions = ["foo"]
    ∧ (parse_js_ts_file "function foo() \x7b\n  return 1;\n\x7d\n").total_lines = 3
    ∧ (parse_js_ts_file "function foo() \x7b\n  return 1;\n\x7d\n").context_lines = 1
    ∧ (parse_js_ts_file "function foo() \x7b\n  return 1;\n\x7d\n").skipped_lines = 2
    ∧ (parse_js_ts_file "function foo() \x7b\n  return 1;\n\x7d\n").non_context_lines = 0 := by
  decide

/-- C10: the single-line input matching both the import and the require
pattern records both captures, counts two context lines against one total
line, and ends with `non_context_lines = -1`: the field is not guaranteed
to be non-negative. -/
theorem C10_negative_non_context :
    (parse_js_ts_file "import x from \"mod\"; const r = require(\"y\");\n").imports = ["mod"]
    ∧ (parse_js_ts_file "import x from \"mod\"; const r = require(\"y\");\n").requires = ["y"]
    ∧ (parse_js_ts_file "import x from \"mod\"; const r = require(\"y\");\n").total_lines = 1
    ∧ (parse_js_ts_file "import x from \"mod\"; const r = require(\"y\");\n").context_lines = 2
    ∧ (parse_js_ts_file "import x from \"mod\"; const r = require(\"y\");\n").non_context_lines = -1 := by
  decide

/-- C7: the output artifact is written in worker-pool completion order, and
two completion orders of the same record set yield different artifacts —
the write stage does not stabilize record order. -/
theorem C7_completion_order_dependent :
    [("/a.js", "A"), ("/b.js", "B")].Perm [("/b.js", "B"), ("/a.js", "A")]
    ∧ writeOutput [("/a.js", "A"), ("/b.js", "B")]
        ≠ writeOutput [("/b.js", "B"), ("/a.js", "A")] := by
  decide

/-- C2 counterexample: a single scanning-state line matching both the import
pattern and the require pattern triggers both actions — `context_lines` is
incremented twice for the one line and a capture is appended to two lists —
contradicting the claim that at most one of the five patterns triggers per
line. -/
theorem C2_counterexample :
    (parseLines ["import a from 'x'; const r = require('z');\n"]).context_lines = 2
    ∧ (parseLines ["import a from 'x'; const r = require('z');\n"]).imports = ["x"]
    ∧ (parseLines ["import a from 'x'; const r = require('z');\n"]).requires = ["z"] := by
  decide

/-- C2 amended: in scanning state the import and require patterns are each
tested on every line, unconditionally and independently; only the function,
class and prototype-assignment patterns form a priority chain in which the
first match suppresses the later tests.  Hence, on a one-line file, each of
the five lists receives exactly the matches this discipline dictates, and
`context_lines` is their total — up to three per line, not at most one. -/
theorem C2_amended_per_line_actions (l : String) :
    ((parseLines [l]).imports.length
        = (if (reSearch IMPORT_PATTERN l).isSome = true then 1 else 0))
    ∧ ((parseLines [l]).requires.length
        = (if (reSearch REQUIRE_PATTERN l).isSome = true then 1 else 0))
    ∧ ((parseLines [l]).functions.length
        = (if (reSearch FUNCTION_PATTERN l).isSome = true then 1 else 0))
    ∧ ((parseLines [l]).classes.length
        = (if (reSearch FUNCTION_PATTERN l).isSome = false
              ∧ (reSearch CLASS_PATTERN l).isSome = true then 1 else 0))
    ∧ ((parseLines [l]).prototype_methods.length
        = (if (reSearch FUNCTION_PATTERN l).isSome = false
              ∧ (reSearch CLASS_PATTERN l).isSome = false
              ∧ (reSearch PROTOTYPE_METHOD_PATTERN l).isSome = true then 1 else 0))
    ∧ ((parseLines [l]).context_lines
        = (parseLines [l]).imports.length + (parseLines [l]).requires.length
          + (parseLines [l]).functions.length + (parseLines [l]).classes.length
          + (parseLines [l]).prototype_methods.length) := by
  rcases h1 : reSearch IMPORT_PATTERN l with _ | c1 <;>
    rcases h2 : reSearch REQUIRE_PATTERN l with _ | c2 <;>
      rcases h3 : reSearch FUNCTION_PATTERN l with _ | c3 <;>
        rcases h4 : reSearch CLASS_PATTERN l with _ | c4 <;>
          rcases h5 : reSearch PROTOTYPE_METHOD_PATTERN l with _ | c5 <;>
            by_cases hb : containsChar l '\x7b' <;>
              simp [parseLines, mainLoopAux, scanOpenAux, initPState,
                h1, h2, h3, h4, h5, hb]


/-- C3: the filter applies its five rules in the fixed source order with
short-circuit — it agrees with the spec's ordered rule list — and in
particular a path ending with an ignored extension is excluded whatever the
file's size, modification time, patterns or checksum state, and a file
larger than the maximum is excluded as well. -/
theorem C3_rule_order (f : FileMeta) (cfg : ScanConfig) (cache : ChecksumCache) :
    ((cfg.ignore_extensions.any (fun ext => strEndsWith f.path ext)) = true →
      should_ignore_file f cfg cache = Except.ok true)
    ∧ (∀ sz : Nat, f.size = Except.ok sz → sz > cfg.max_file_size →
        should_ignore_file f cfg cache = Except.ok true)
    ∧ should_ignore_file f cfg cache = is_excluded_spec f cfg cache := by
  refine ⟨fun hext => by simp [should_ignore_file, hext], ?_, ?_⟩
  · intro sz hsz hbig
    by_cases hext : (cfg.ignore_extensions.any fun ext => strEndsWith f.path ext) = true <;>
      simp [should_ignore_file, hext, hsz, hbig]
  · by_cases hext : (cfg.ignore_extensions.any fun ext => strEndsWith f.path ext) = true
    · simp [should_ignore_file, is_excluded_spec, firstTrue, hext]
    · cases hs : f.size with
      | error e =>
          simp [should_ignore_file, is_excluded_spec, firstTrue, hext, hs, Except.map]
      | ok sz =>
        by_cases hbig : sz > cfg.max_file_size
        · simp [should_ignore_file, is_excluded_spec, firstTrue, hext, hs, hbig,
            Except.map]
        · cases hm : f.mtime with
          | error e =>
              simp [should_ignore_file, is_excluded_spec, firstTrue, hext, hs, hbig,
                hm, Except.map]
          | ok mt =>
            by_cases hold : mt < cfg.modified_after
            · simp [should_ignore_file, is_excluded_spec, firstTrue, hext, hs, hbig,
                hm, hold, Except.map]
            · by_cases hpat : (cfg.ignore_patterns.any fun pat => pat f.path) = true
              · simp [should_ignore_file, is_excluded_spec, firstTrue, hext, hs,
                  hbig, hm, hold, hpat, Except.map]
              · cases hcc : cfg.use_checksum_cache
                · simp [should_ignore_file, is_excluded_spec, firstTrue, hext, hs,
                    hbig, hm, hold, hpat, hcc, Except.map]
                · cases hc : lookupCache cache f.path with
                  | none =>
                      simp [should_ignore_file, is_excluded_spec, firstTrue, hext,
                        hs, hbig, hm, hold, hpat, hcc, hc, Except.map]
                  | some old =>
                      cases hv : old == f.md5 <;>
                        simp [should_ignore_file, is_excluded_spec, firstTrue, hext,
                          hs, hbig, hm, hold, hpat, hcc, hc, hv, Except.map]

/-- C3 witness: a concrete configuration in which a `.png` file is excluded
by rule 1 even though it is oversized and stale, and an allowed-extension
file is excluded by rule 2 for its size alone. -/
theorem C3_rule_order_witness :
    should_ignore_file
        { path := "/pic.png", size := Except.ok 999999999,
          mtime := Except.ok 999, md5 := "m" }
        { file_extensions := [".js"], ignore_directories := [],
          ignore_extensions := [".png"], ignore_patterns := [],
          modified_after := 1000, max_file_size := 2097152,
          use_checksum_cache := false }
        [] = Except.ok true
    ∧ should_ignore_file
        { path := "/big.js", size := Except.ok 3145728,
          mtime := Except.ok 2000, md5 := "m" }
        { file_extensions := [".js"], ignore_directories := [],
          ignore_extensions := [".png"], ignore_patterns := [],
          modified_after := 1000, max_file_size := 2097152,
          use_checksum_cache := false }
        [] = Except.ok true :=
  ⟨(C3_rule_order
      { path := "/pic.png", size := Except.ok 999999999,
        mtime := Except.ok 999, md5 := "m" }
      { file_extensions := [".js"], ignore_directories := [],
        ignore_extensions := [".png"], ignore_patterns := [],
        modified_after := 1000, max_file_size := 2097152,
        use_checksum_cache := false }
      []).1 (by decide),
   (C3_rule_order
      { path := "/big.js", size := Except.ok 3145728,
        mtime := Except.ok 2000, md5 := "m" }
      { file_extensions := [".js"], ignore_directories := [],
        ignore_extensions := [".png"], ignore_patterns := [],
        modified_after := 1000, max_file_size := 2097152,
        use_checksum_cache := false }
      []).2.1 3145728 rfl (by decide)⟩

/-- C6: when checksum caching is enabled and rules 1–4 all pass, the filter
excludes the file exactly when the cache holds an entry for that exact path
equal to the file's current content hash; a missing entry or a differing
hash leaves the file included. -/
theorem C6_checksum_rule (f : FileMeta) (cfg : ScanConfig) (cache : ChecksumCache)
    (sz : Nat) (mt : Int)
    (hcache : cfg.use_checksum_cache = true)
    (hext : (cfg.ignore_extensions.any fun ext => strEndsWith f.path ext) = false)
    (hsz : f.size = Except.ok sz) (hfits : ¬ sz > cfg.max_file_size)
    (hmt : f.mtime = Except.ok mt) (hfresh : ¬ mt < cfg.modified_after)
    (hpat : (cfg.ignore_patterns.any fun pat => pat f.path) = false) :
    should_ignore_file f cfg cache = Except.ok true
      ↔ lookupCache cache f.path = some f.md5 := by
  simp only [should_ignore_file, hext, Bool.false_eq_true, if_false, hsz,
    if_neg hfits, hmt, if_neg hfresh, hpat, hcache, if_true]
  cases hc : lookupCache cache f.path <;> simp [hc, beq_iff_eq]

/-- C6 witness: with caching enabled, a file passing rules 1–4 whose current
hash equals its cache entry is excluded. -/
theorem C6_checksum_rule_witness :
    should_ignore_file
        { path := "/a.js", size := Except.ok 10, mtime := Except.ok 100, md5 := "h" }
        { file_extensions := [".js"], ignore_directories := [],
          ignore_extensions := [".png"], ignore_patterns := [],
          modified_after := 0, max_file_size := 1000, use_checksum_cache := true }
        [("/a.js", "h")] = Except.ok true :=
  (C6_checksum_rule
      { path := "/a.js", size := Except.ok 10, mtime := Except.ok 100, md5 := "h" }
      { file_extensions := [".js"], ignore_directories := [],
        ignore_extensions := [".png"], ignore_patterns := [],
        modified_after := 0, max_file_size := 1000, use_checksum_cache := true }
      [("/a.js", "h")] 10 100 rfl (by decide) rfl (by decide) rfl (by decide)
      (by decide)).mpr (by decide)

/-- C5 counterexample: a metadata error on one candidate in the middle of
the filtering loop aborts the whole batch — `filterFiles` returns the error
instead of treating the file as excluded and continuing, so the remaining
candidate is never processed. -/
theorem C5_counterexample :
    filterFiles
      [ { path := "/x.js", size := Except.ok 1, mtime := Except.ok 5, md5 := "a" },
        { path := "/bad.js", size := Except.error "stat failed",
          mtime := Except.ok 5, md5 := "b" },
        { path := "/y.js", size := Except.ok 1, mtime := Except.ok 5, md5 := "c" } ]
      { file_extensions := [".js"], ignore_directories := [],
        ignore_extensions := [], ignore_patterns := [],
        modified_after := 0, max_file_size := 100, use_checksum_cache := false }
      [] = Except.error "stat failed" := by
  rfl

/-- C5 amended: per-file error confinement holds for the parallel read
phase — a failed read is dropped and the other records are unaffected — but
an I/O error raised by the metadata rules during the filtering loop
propagates out of the loop and terminates the batch. -/
theorem C5_amended_error_scopes :
    (∀ (pre post : List (String × Except String String)) (fp e : String),
        readPhase (pre ++ (fp, Except.error e) :: post) = readPhase (pre ++ post))
    ∧ (∀ (cands : List FileMeta) (cfg : ScanConfig) (cache : ChecksumCache),
        (∃ f ∈ cands, ∃ e, should_ignore_file f cfg cache = Except.error e) →
        ∃ e2, filterFiles cands cfg cache = Except.error e2) := by
  constructor
  · intro pre post fp e
    induction pre with
    | nil => simp [readPhase]
    | cons hd tl ih =>
        obtain ⟨p, r⟩ := hd
        cases r <;> simp [readPhase, ih]
  · intro cands cfg cache h
    induction cands with
    | nil => obtain ⟨f, hf, _⟩ := h; cases hf
    | cons c rest ih =>
        obtain ⟨f, hf, e, he⟩ := h
        cases hsc : should_ignore_file c cfg cache with
        | error e2 => exact ⟨e2, by simp [filterFiles, hsc]⟩
        | ok b =>
            rcases List.mem_cons.mp hf with rfl | hmem
            · rw [hsc] at he; cases he
            · obtain ⟨e2, hrest⟩ := ih ⟨f, hmem, e, he⟩
              cases b <;>
                simp [filterFiles, hsc, hrest, Except.map]

/-- C5 witness: a dropped read in a concrete run leaves the other records
intact, and a concrete filtering batch containing a candidate with failing
metadata ends in an error. -/
theorem C5_amended_error_scopes_witness :
    readPhase [("/a", Except.ok "A"), ("/b", Except.error "gone"),
        ("/c", Except.ok "C")]
      = readPhase [("/a", Except.ok "A"), ("/c", Except.ok "C")]
    ∧ ∃ e2, filterFiles
        [ { path := "/bad.js", size := Except.error "stat failed",
            mtime := Except.ok 5, md5 := "b" } ]
        { file_extensions := [".js"], ignore_directories := [],
          ignore_extensions := [], ignore_patterns := [],
          modified_after := 0, max_file_size := 100, use_checksum_cache := false }
        [] = Except.error e2 :=
  ⟨C5_amended_error_scopes.1 [("/a", Except.ok "A")] [("/c", Except.ok "C")]
      "/b" "gone",
   C5_amended_error_scopes.2
      [ { path := "/bad.js", size := Except.error "stat failed",
          mtime := Except.ok 5, md5 := "b" } ]
      { file_extensions := [".js"], ignore_directories := [],
        ignore_extensions := [], ignore_patterns := [],
        modified_after := 0, max_file_size := 100, use_checksum_cache := false }
      []
      ⟨{ path := "/bad.js", size := Except.error "stat failed",
         mtime := Except.ok 5, md5 := "b" },
       List.mem_cons_self _ _, "stat failed", rfl⟩⟩

/-- Decoding undoes encoding for one valid Unicode scalar value, whatever
bytes follow. -/
theorem utf8DecodeIgnore_encodeChar (n : Nat)
    (hv : n < 0xD800 ∨ (0xDFFF < n ∧ n < 0x110000)) (rest : List Nat) :
    utf8DecodeIgnore (utf8EncodeChar n ++ rest) = n :: utf8DecodeIgnore rest := by
  have f1 : 128 + n % 64 < 192 := by omega
  have f2 : 128 + n / 64 % 64 < 192 := by omega
  have f3 : 128 + n / 4096 % 64 < 192 := by omega
  by_cases h80 : n < 0x80
  · simp only [utf8EncodeChar, if_pos h80, List.cons_append, List.nil_append]
    simp [utf8DecodeIgnore, decodeOne, h80]
  · by_cases h800 : n < 0x800
    · simp only [utf8EncodeChar, if_neg h80, if_pos h800, List.cons_append,
        List.nil_append]
      have g1 : ¬ (192 + n / 64 < 128) := by omega
      have g2 : 194 ≤ 192 + n / 64 := by omega
      have g3 : 192 + n / 64 ≤ 223 := by omega
      have e6 : (192 + n / 64 - 192) * 64 + (128 + n % 64 - 128) = n := by omega
      conv_rhs => rw [← e6]
      simp [utf8DecodeIgnore, decodeOne, isContByte, g1, g2, g3, f1]
    · by_cases h10000 : n < 0x10000
      · simp only [utf8EncodeChar, if_neg h80, if_neg h800, if_pos h10000,
          List.cons_append, List.nil_append]
        have h1 : ¬ (224 + n / 4096 < 128) := by omega
        have h2 : ¬ (224 + n / 4096 ≤ 223) := by omega
        have h3 : 224 + n / 4096 ≤ 239 := by omega
        have e6 : (224 + n / 4096 - 224) * 4096 + (128 + n / 64 % 64 - 128) * 64
            + (128 + n % 64 - 128) = n := by omega
        conv_rhs => rw [← e6]
        by_cases hE0 : n < 0x1000
        · have eq0 : 224 + n / 4096 = 224 := by omega
          have s1 : 160 ≤ 128 + n / 64 % 64 := by omega
          simp [utf8DecodeIgnore, decodeOne, isContByte, h1, h2, h3, eq0, s1,
            f1, f2]
        · by_cases hED : 0xD000 ≤ n ∧ n < 0xE000
          · have hsur : 0xD000 ≤ n ∧ n < 0xD800 := by omega
            have eq0 : ¬ (224 + n / 4096 = 224) := by omega
            have eqD : 224 + n / 4096 = 237 := by omega
            have s2 : 128 + n / 64 % 64 < 160 := by omega
            simp [utf8DecodeIgnore, decodeOne, isContByte, h1, h2, h3, eq0, eqD,
              s2, f1, f2]
          · have eq0 : ¬ (224 + n / 4096 = 224) := by omega
            have eqD : ¬ (224 + n / 4096 = 237) := by omega
            simp [utf8DecodeIgnore, decodeOne, isContByte, h1, h2, h3, eq0, eqD,
              f1, f2]
      · have h110000 : n < 0x110000 := by omega
        simp only [utf8EncodeChar, if_neg h80, if_neg h800, if_neg h10000,
          List.cons_append, List.nil_append]
        have k1 : ¬ (240 + n / 262144 < 128) := by omega
        have k2 : ¬ (240 + n / 262144 ≤ 223) := by omega
        have k3 : ¬ (240 + n / 262144 ≤ 239) := by omega
        have k4 : 240 + n / 262144 ≤ 244 := by omega
        have e6 : (240 + n / 262144 - 240) * 262144
            + (128 + n / 4096 % 64 - 128) * 4096
            + (128 + n / 64 % 64 - 128) * 64 + (128 + n % 64 - 128) = n := by
          omega
        conv_rhs => rw [← e6]
        by_cases hF0 : n < 0x40000
        · have eqF0 : 240 + n / 262144 = 240 := by omega
          have s3 : 144 ≤ 128 + n / 4096 % 64 := by omega
          simp [utf8DecodeIgnore, decodeOne, isContByte, k1, k2, k3, k4, eqF0,
            s3, f1, f2, f3]
        · by_cases hF4 : 0x100000 ≤ n
          · have eqF0 : ¬ (240 + n / 262144 = 240) := by omega
            have eqF4 : 240 + n / 262144 = 244 := by omega
            have s4 : 128 + n / 4096 % 64 < 144 := by omega
            simp [utf8DecodeIgnore, decodeOne, isContByte, k1, k2, k3, k4, eqF0,
              eqF4, s4, f1, f2, f3]
          · have eqF0 : ¬ (240 + n / 262144 = 240) := by omega
            have eqF4 : ¬ (240 + n / 262144 = 244) := by omega
            simp [utf8DecodeIgnore, decodeOne, isContByte, k1, k2, k3, k4, eqF0,
              eqF4, f1, f2, f3]

/-- Every Lean character carries a valid Unicode scalar value. -/
theorem char_toNat_valid (c : Char) :
    c.toNat < 0xD800 ∨ (0xDFFF < c.toNat ∧ c.toNat < 0x110000) := by
  have h := c.valid
  simpa [Char.toNat, UInt32.isValidChar, Nat.isValidChar] using h

/-- Decoding undoes encoding for a whole character list. -/
theorem utf8DecodeIgnore_encodeList (cs : List Char) :
    utf8DecodeIgnore ((cs.map (fun c => utf8EncodeChar c.toNat)).join)
      = cs.map Char.toNat := by
  induction cs with
  | nil => simp [utf8DecodeIgnore]
  | cons c t ih =>
      simp only [List.map_cons, List.join_cons]
      rw [utf8DecodeIgnore_encodeChar c.toNat (char_toNat_valid c), ih]

/-- `read_file_content` returns the universal-newline translation of the
file's text when the on-disk bytes are the UTF-8 encoding of that text. -/
theorem read_file_content_exact (f : DiskFile) (s : String)
    (h : f.bytes = utf8EncodeString s) :
    read_file_content f = (f.path, universalNewlines s) := by
  unfold read_file_content utf8DecodeIgnoreString
  rw [h]
  unfold utf8EncodeString
  rw [utf8DecodeIgnore_encodeList, List.map_map]
  have hmap : s.data.map (Char.ofNat ∘ Char.toNat) = s.data := by
    simp only [Function.comp_def, Char.ofNat_toNat, List.map_id']
  rw [hmap]

/-- On a character that is not a carriage return, the newline translation
keeps the character and continues. -/
theorem universalNewlinesAux_cons_ne (c : Char) (rest : List Char)
    (hc : c ≠ '\r') :
    universalNewlinesAux (c :: rest) = c :: universalNewlinesAux rest := by
  conv_lhs => rw [universalNewlinesAux.eq_def]
  split <;> simp_all

/-- Text without carriage returns is unchanged by newline translation. -/
theorem universalNewlinesAux_no_cr (cs : List Char) (h : '\r' ∉ cs) :
    universalNewlinesAux cs = cs := by
  induction cs with
  | nil => rfl
  | cons c rest ih =>
      have hc : c ≠ '\r' := fun he => h (he ▸ List.mem_cons_self c rest)
      rw [universalNewlinesAux_cons_ne c rest hc,
        ih (fun hm => h (List.mem_cons_of_mem c hm))]

/-- A string without carriage returns is unchanged by newline translation. -/
theorem universalNewlines_no_cr (s : String) (h : '\r' ∉ s.data) :
    universalNewlines s = s := by
  unfold universalNewlines
  rw [universalNewlinesAux_no_cr s.data h]

/-- Folding the write loop from any accumulator prepends the accumulator. -/
theorem writeOutput_foldl (a : String) (l : List (String × String)) :
    l.foldl (fun acc r => acc ++ r.1 ++ "\n" ++ r.2 ++ "\n") a
      = a ++ writeOutput l := by
  induction l generalizing a with
  | nil => simp [writeOutput]
  | cons r t ih =>
      simp only [writeOutput, List.foldl_cons]
      rw [ih, ih ("" ++ r.1 ++ "\n" ++ r.2 ++ "\n")]
      simp [String.append_assoc]

/-- C4 counterexample: a valid-UTF-8 file containing a carriage return —
its bytes are exactly the UTF-8 encoding of `a\r\nb`, satisfying the claim's
precondition — is read back (and hence written) as `a\nb`, which differs
from the content on disk: Python text mode translates universal newlines,
so the valid-UTF-8 precondition alone does not give byte-exact round-trip. -/
theorem C4_counterexample :
    (read_file_content
        { path := "/f.txt", bytes := utf8EncodeString "a\r\nb" }).2 = "a\nb"
    ∧ "a\nb" ≠ "a\r\nb" := by
  constructor
  · rw [read_file_content_exact
      { path := "/f.txt", bytes := utf8EncodeString "a\r\nb" } "a\r\nb" rfl]
    rfl
  · decide

/-- C4 amended: round-trip of the aggregation output up to newline
translation.  For every read record whose on-disk bytes are the UTF-8
encoding of a text `s`, the content read — and written — is the
universal-newline translation of `s` (equal to `s` itself whenever `s`
contains no carriage return), and the output artifact is exactly some
prefix, then the record's path on its own line immediately followed by that
content and a trailing newline, then the output of the remaining records —
nothing interleaved inside the record. -/
theorem C4_output_roundtrip (files : List DiskFile) (f : DiskFile) (s : String)
    (hmem : f ∈ files) (hbytes : f.bytes = utf8EncodeString s) :
    (read_file_content f).2 = universalNewlines s
    ∧ ('\r' ∉ s.data → (read_file_content f).2 = s)
    ∧ ∃ pre post : String,
        writeOutput (files.map read_file_content)
          = pre ++ (f.path ++ "\n" ++ universalNewlines s ++ "\n") ++ post := by
  have hread : read_file_content f = (f.path, universalNewlines s) :=
    read_file_content_exact f s hbytes
  refine ⟨by rw [hread], fun hcr => ?_, ?_⟩
  · rw [hread]
    exact universalNewlines_no_cr s hcr
  · obtain ⟨l1, l2, rfl⟩ := List.append_of_mem hmem
    refine ⟨writeOutput (l1.map read_file_content),
            writeOutput (l2.map read_file_content), ?_⟩
    rw [List.map_append, List.map_cons, hread]
    unfold writeOutput
    rw [List.foldl_append, List.foldl_cons]
    rw [writeOutput_foldl]
    simp [writeOutput, String.append_assoc]

/-- C4 witness: a concrete one-file run — the bytes of `hi\n` (which has no
carriage return) decode back to `hi\n` exactly, and the artifact splits
around the record's block. -/
theorem C4_output_roundtrip_witness :
    (read_file_content { path := "/a.txt", bytes := utf8EncodeString "hi\n" }).2
        = "hi\n"
    ∧ ∃ pre post : String,
        writeOutput ([{ path := "/a.txt", bytes := utf8EncodeString "hi\n" }].map
            read_file_content)
          = pre ++ ("/a.txt" ++ "\n" ++ universalNewlines "hi\n" ++ "\n") ++ post :=
  ⟨(C4_output_roundtrip [{ path := "/a.txt", bytes := utf8EncodeString "hi\n" }]
      { path := "/a.txt", bytes := utf8EncodeString "hi\n" } "hi\n"
      (List.mem_cons_self _ _) rfl).2.1 (by decide),
   (C4_output_roundtrip [{ path := "/a.txt", bytes := utf8EncodeString "hi\n" }]
      { path := "/a.txt", bytes := utf8EncodeString "hi\n" } "hi\n"
      (List.mem_cons_self _ _) rfl).2.2⟩

/-- Structural induction for directory trees, descending into every
subdirectory. -/
theorem FsTree.inductionOn (motive : FsTree → Prop)
    (h : ∀ name files subdirs,
      (∀ d ∈ subdirs, motive d) → motive (FsTree.node name files subdirs)) :
    ∀ t : FsTree, motive t
  | FsTree.node n fs ds =>
      h n fs ds (fun d hd => FsTree.inductionOn motive h d)
termination_by t => sizeOf t
decreasing_by
  have := List.sizeOf_lt_of_mem hd
  simp only [FsTree.node.sizeOf_spec]
  omega

/-- Membership in the pruned subdirectory traversal: a candidate comes from
some subdirectory that was not skipped. -/
theorem mem_collectSubdirs (cfg : ScanConfig) (root f : String) :
    ∀ ds : List FsTree,
      f ∈ collectSubdirs cfg root ds
        ↔ ∃ d ∈ ds, should_skip_directory d.name cfg = false
            ∧ f ∈ collectTree cfg (root ++ "/" ++ d.name) d := by
  intro ds
  induction ds with
  | nil => simp [collectSubdirs]
  | cons d t ih =>
      cases hskip : should_skip_directory d.name cfg <;>
        simp [collectSubdirs, hskip, ih]

/-- Pruned subdirectories contribute nothing to the traversal. -/
theorem collectSubdirs_filter (cfg : ScanConfig) (root : String) :
    ∀ ds : List FsTree,
      collectSubdirs cfg root ds
        = collectSubdirs cfg root
            (ds.filter (fun d => !should_skip_directory d.name cfg)) := by
  intro ds
  induction ds with
  | nil => simp
  | cons d t ih =>
      cases hskip : should_skip_directory d.name cfg <;>
        simp [collectSubdirs, hskip, ih]

/-- C8 counterexample: an ignore pattern matching the full path of directory
`base/foo/bar` (but not its bare name `bar`) does not prune that directory —
the file `a.js` underneath is still yielded as a candidate, because
`should_skip_directory` tests patterns against the directory name, not its
full path. -/
theorem C8_counterexample :
    (({ file_extensions := [".js"], ignore_directories := [],
        ignore_extensions := [], ignore_patterns := [fun s => s == "base/foo/bar"],
        modified_after := 0, max_file_size := 0,
        use_checksum_cache := false } : ScanConfig).ignore_patterns.any
      (fun p => p "base/foo/bar")) = true
    ∧ should_skip_directory "bar"
        { file_extensions := [".js"], ignore_directories := [],
          ignore_extensions := [], ignore_patterns := [fun s => s == "base/foo/bar"],
          modified_after := 0, max_file_size := 0,
          use_checksum_cache := false } = false
    ∧ collectTree
        { file_extensions := [".js"], ignore_directories := [],
          ignore_extensions := [], ignore_patterns := [fun s => s == "base/foo/bar"],
          modified_after := 0, max_file_size := 0,
          use_checksum_cache := false }
        "base"
        (FsTree.node "base" []
          [FsTree.node "foo" [] [FsTree.node "bar" ["a.js"] []]])
      = ["base/foo/bar/a.js"] := by
  refine ⟨by decide, by decide, ?_⟩
  rfl

/-- C8 amended: traversal prunes exactly at directories whose name matches
an ignored-directory name or whose name matches an ignore pattern — removing
the skipped subdirectories changes nothing, so no file under such a
directory is ever yielded — and every yielded candidate is a path whose
file-name component ends with an allowed extension. -/
theorem C8_amended_prune_by_name (cfg : ScanConfig) :
    (∀ (root name : String) (files : List String) (subdirs : List FsTree),
        collectTree cfg root (FsTree.node name files subdirs)
          = collectTree cfg root (FsTree.node name files
              (subdirs.filter (fun d => !should_skip_directory d.name cfg))))
    ∧ (∀ (t : FsTree) (root f : String), f ∈ collectTree cfg root t →
        ∃ dir fn, f = dir ++ "/" ++ fn
          ∧ (cfg.file_extensions.any fun ext => strEndsWith fn ext) = true) := by
  constructor
  · intro root name files subdirs
    simp only [collectTree]
    rw [← collectSubdirs_filter]
  · intro t
    induction t using FsTree.inductionOn with
    | h name files subdirs ih =>
        intro root f hf
        simp only [collectTree] at hf
        rcases List.mem_append.mp hf with hleft | hright
        · obtain ⟨fn, hfn, rfl⟩ := List.mem_map.mp hleft
          exact ⟨root, fn, rfl, (List.mem_filter.mp hfn).2⟩
        · obtain ⟨d, hd, _, hmem⟩ :=
            ((mem_collectSubdirs cfg root f subdirs).mp hright)
          exact ih d hd (root ++ "/" ++ d.name) f hmem

/-- C8 witness: pruning `node_modules` by name leaves the traversal
unchanged, and the concrete candidate `base/a.js` decomposes into a
directory and a file name ending with an allowed extension. -/
theorem C8_amended_prune_by_name_witness :
    collectTree
        { file_extensions := [".js"], ignore_directories := ["node_modules"],
          ignore_extensions := [], ignore_patterns := [],
          modified_after := 0, max_file_size := 0, use_checksum_cache := false }
        "base"
        (FsTree.node "base" [] [FsTree.node "node_modules" ["dep.js"] []])
      = collectTree
        { file_extensions := [".js"], ignore_directories := ["node_modules"],
          ignore_extensions := [], ignore_patterns := [],
          modified_after := 0, max_file_size := 0, use_checksum_cache := false }
        "base"
        (FsTree.node "base" []
          ([FsTree.node "node_modules" ["dep.js"] []].filter
            (fun d => !should_skip_directory d.name
              { file_extensions := [".js"], ignore_directories := ["node_modules"],
                ignore_extensions := [], ignore_patterns := [],
                modified_after := 0, max_file_size := 0,
                use_checksum_cache := false })))
    ∧ ∃ dir fn, "base/a.js" = dir ++ "/" ++ fn
        ∧ (({ file_extensions := [".js"], ignore_directories := ["node_modules"],
              ignore_extensions := [], ignore_patterns := [],
              modified_after := 0, max_file_size := 0,
              use_checksum_cache := false } : ScanConfig).file_extensions.any
            (fun ext => strEndsWith fn ext)) = true :=
  ⟨(C8_amended_prune_by_name _).1 "base" "base" []
      [FsTree.node "node_modules" ["dep.js"] []],
   (C8_amended_prune_by_name _).2 (FsTree.node "base" ["a.js"] []) "base"
      "base/a.js" (by decide)⟩
